import Mathlib

/-!
Verification of the `LiveClient` RPC client (src/index.ts of naveego/live-js).

The TypeScript client wraps a socket.io socket.  We embed it shallowly:

* JavaScript values occurring in envelopes are modelled by the inductive
  type `Value`.
* The envelope interfaces `RPCRequest`, `RPCResponse` and `RPCError` are
  modelled by structures of the same names.  `RPCResponse.error` is typed
  `any` in the source and tested for truthiness; presence/absence is
  modelled by `Option` (with `none` standing for the absent, `undefined`
  or `null` cases, all of which are falsy).
* A promise that has settled is modelled by `Outcome` (resolved value or
  rejection reason).
* `socket.emit` calls are reified into `SocketEffect` values: an emit on
  the RPC channel carrying a request envelope with an acknowledgement
  callback, or a plain fire-and-forget emit.
* The private mutable field `id` of `LiveClient` becomes an explicit
  state record; each method returns its effects next to the new state.
-/

/-- JavaScript values carried in RPC envelopes (`any` in the source).
`null` also stands for `undefined`. -/
inductive Value where
  | null : Value
  | bool (b : Bool) : Value
  | num (n : Int) : Value
  | str (s : String) : Value
  | arr (elems : List Value) : Value
  | obj (fields : List (String × Value)) : Value
deriving Repr

/-- Embeds the `RPCRequest` interface: id, method, params. -/
structure RPCRequest where
  id : String
  method : String
  params : List Value
deriving Repr

/-- Embeds the `RPCError` interface: code, message, optional data.
`message` is typed `string` in the source interface but `onRequest`
passes an arbitrary rejection reason there, so it is a `Value`. -/
structure RPCError where
  code : Int
  message : Value
  data : Option Value := none
deriving Repr

/-- Embeds the `RPCResponse` interface.  `result` and `error` are
optional; `none` models the absent / `undefined` / `null` (falsy)
cases that the source tests with `if(response.error)`. -/
structure RPCResponse where
  id : String
  result : Option Value := none
  error : Option RPCError := none
deriving Repr

/-- A settled promise: resolved with a value (possibly `undefined`,
hence `Option`) or rejected with a reason. -/
inductive Outcome where
  | resolved (value : Option Value) : Outcome
  | rejected (error : RPCError) : Outcome
deriving Repr

/-- One `socket.emit` call, reified.  `emitRPC` is an emit on a channel
carrying a request envelope together with an acknowledgement callback;
`emitPlain` is a fire-and-forget emit of a payload with no callback. -/
inductive SocketEffect where
  | emitRPC (channel : String) (request : RPCRequest) : SocketEffect
  | emitPlain (channel : String) (payload : Value) : SocketEffect
deriving Repr

/-- The channel name constant `RPCEvent = "rpc"` from the source. -/
def RPCEvent : String := "rpc"

/-- The state of a `LiveClient` instance: its private counter field
`id` (initialised to 0 by the class). -/
structure LiveClient where
  id : Nat
deriving Repr

/-- The acknowledgement callback that `request` installs.  It embeds
the function body
`if(response.error){ return reject(response.error); } resolve(response.result)`;
the closure captures nothing call-specific, so it is the same function
for every call. -/
def requestCallback (response : RPCResponse) : Outcome :=
  match response.error with
  | some err => Outcome.rejected err
  | none => Outcome.resolved response.result

/-- Embeds `LiveClient.request`: increments `this.id`, then emits on the
`RPCEvent` channel the envelope
`id: this.id.toString(), method: address + "." + method, params: [param]`
with the acknowledgement callback above.  Returns the new client state,
the emitted envelope and the callback. -/
def LiveClient.request (c : LiveClient) (address : String) (method : String)
    (param : Value) : LiveClient × RPCRequest × (RPCResponse → Outcome) :=
  let next : LiveClient := { id := c.id + 1 }
  ( next
  , { id := toString next.id
    , method := (address ++ ".") ++ method
    , params := [param] }
  , requestCallback )

/-- Embeds `LiveClient.notify`: `this.socket.emit(method, param)`.
No counter change, no envelope, no acknowledgement callback. -/
def LiveClient.notify (c : LiveClient) (method : String) (param : Value) :
    LiveClient × SocketEffect :=
  (c, SocketEffect.emitPlain method param)

/-- Embeds `LiveClient.authenticate`:
`return this.request<boolean>("", "Live.Authenticate", token)`. -/
def LiveClient.authenticate (c : LiveClient) (token : String) :
    LiveClient × RPCRequest × (RPCResponse → Outcome) :=
  c.request "" "Live.Authenticate" (Value.str token)

/-- What one dispatch of the listener registered by `onRequest` did:
the arguments the handler was invoked with, and the invocations of the
acknowledgement callback, both in order. -/
structure HandlerRun where
  handlerCalls : List Value
  acks : List RPCResponse
deriving Repr

/-- Embeds the listener that `LiveClient.onRequest(method, handler)`
registers on the `RPCEvent` channel.  The handler promise is modelled
by `Except Value Value` (`Except.error` = rejection reason).  The body

`if (request.method === method) {
    handler(request.params[0])
      .catch((err) => callback(id, error: code 500, message: err))
      .then((result) => callback(id, result: result)); }`

is embedded faithfully: on handler success `V` the catch is skipped and
the then-step acknowledges with `result: V`; on handler failure the
catch-step acknowledges with the 500 error AND, because the catch
handler returns `undefined`, the chained then-step fires a second
acknowledgement with `result: undefined` (modelled as `none`).  A
non-matching method does nothing.  JavaScript indexing
`request.params[0]` on an empty array yields `undefined`, modelled by
`Value.null`. -/
def LiveClient.onRequest (method : String) (handler : Value → Except Value Value)
    (request : RPCRequest) : HandlerRun :=
  if request.method = method then
    let arg := request.params.headD Value.null
    match handler arg with
    | Except.ok result =>
        { handlerCalls := [arg]
        , acks := [{ id := request.id, result := some result }] }
    | Except.error err =>
        { handlerCalls := [arg]
        , acks :=
            [ { id := request.id, error := some { code := 500, message := err } }
            , { id := request.id, result := none } ] }
  else
    { handlerCalls := [], acks := [] }

/-- An operation a user performs on one client instance. -/
inductive ClientOp where
  | call (address : String) (method : String) (param : Value) : ClientOp
  | authenticate (token : String) : ClientOp
  | notify (method : String) (param : Value) : ClientOp

/-- A client instance together with the trace of its emits and, for
each emit that attached an acknowledgement callback, the pending entry
the socket keeps until the acknowledgement arrives.

Modelled from the spec: socket.io's emit-with-acknowledgement registers
a single-use callback on the socket, and the Live service acknowledges
each request with the `RPCResponse` whose `id` echoes the request's
`id`; so the registry is keyed here by the emitted envelope's id. -/
structure RunState where
  client : LiveClient
  effects : List SocketEffect
  pending : List (String × (RPCResponse → Outcome))

/-- A freshly constructed client: counter 0, nothing emitted, nothing
pending. -/
def initialState : RunState :=
  { client := { id := 0 }, effects := [], pending := [] }

/-- Performs one operation on the client, extending the emit trace and
the pending registry. -/
def step (s : RunState) : ClientOp → RunState
  | ClientOp.call address method param =>
      let r := s.client.request address method param
      { client := r.1
      , effects := s.effects ++ [SocketEffect.emitRPC RPCEvent r.2.1]
      , pending := s.pending ++ [(r.2.1.id, r.2.2)] }
  | ClientOp.authenticate token =>
      let r := s.client.authenticate token
      { client := r.1
      , effects := s.effects ++ [SocketEffect.emitRPC RPCEvent r.2.1]
      , pending := s.pending ++ [(r.2.1.id, r.2.2)] }
  | ClientOp.notify method param =>
      let r := s.client.notify method param
      { client := r.1
      , effects := s.effects ++ [r.2]
      , pending := s.pending }

/-- Performs a sequence of operations in order. -/
def runOps (s : RunState) : List ClientOp → RunState
  | [] => s
  | op :: rest => runOps (step s op) rest

/-- The ids attached to emitted request envelopes, in emission order.
Plain notification emits carry no id. -/
def issuedIds : List SocketEffect → List String
  | [] => []
  | SocketEffect.emitRPC _ req :: rest => req.id :: issuedIds rest
  | SocketEffect.emitPlain _ _ :: rest => issuedIds rest

/-- How many of the operations consume a fresh id (calls and
authentications; notifications do not). -/
def callCount : List ClientOp → Nat
  | [] => 0
  | ClientOp.call _ _ _ :: rest => callCount rest + 1
  | ClientOp.authenticate _ :: rest => callCount rest + 1
  | ClientOp.notify _ _ :: rest => callCount rest

/-- A batch of `call` invocations given as (address, method, param)
triples. -/
def callsOf (xs : List (String × String × Value)) : List ClientOp :=
  xs.map (fun t => ClientOp.call t.1 t.2.1 t.2.2)

/-- The socket-side state while acknowledgements are being delivered:
the still-pending single-use callbacks and the settled outcomes
`(request id, outcome)` in settlement order. -/
structure DeliveryState where
  pending : List (String × (RPCResponse → Outcome))
  settled : List (String × Outcome)

/-- Modelled from the spec: delivery of one acknowledgement.  The
single-use callback registered for the response's id fires with the
response and is deregistered; ids not in the registry are dropped.
Returns the remaining registry and the outcomes produced. -/
def settleIn (resp : RPCResponse) :
    List (String × (RPCResponse → Outcome)) →
    List (String × (RPCResponse → Outcome)) × List (String × Outcome)
  | [] => ([], [])
  | e :: rest =>
      if e.1 = resp.id then (rest, [(e.1, e.2 resp)])
      else
        let r := settleIn resp rest
        (e :: r.1, r.2)

/-- Delivers one response to the socket. -/
def deliverOne (s : DeliveryState) (resp : RPCResponse) : DeliveryState :=
  { pending := (settleIn resp s.pending).1
  , settled := s.settled ++ (settleIn resp s.pending).2 }

/-- Delivers a list of responses in the given arrival order. -/
def deliver (s : DeliveryState) : List RPCResponse → DeliveryState
  | [] => s
  | resp :: rest => deliver (deliverOne s resp) rest

/-- Numeric value of a decimal digit character (10 on other input). -/
def decDigit (c : Char) : Nat :=
  if c = '0' then 0 else if c = '1' then 1 else if c = '2' then 2 else
  if c = '3' then 3 else if c = '4' then 4 else if c = '5' then 5 else
  if c = '6' then 6 else if c = '7' then 7 else if c = '8' then 8 else
  if c = '9' then 9 else 10

/-- The number denoted by a most-significant-first decimal digit
string. -/
def digitsVal (cs : List Char) : Nat :=
  cs.foldl (fun a c => 10 * a + decDigit c) 0

theorem toDigitsCore_eq_append (b : Nat) :
    ∀ (fuel n : Nat) (ds : List Char),
      Nat.toDigitsCore b fuel n ds = Nat.toDigitsCore b fuel n [] ++ ds := by
  intro fuel
  induction fuel with
  | zero => intro n ds; simp [Nat.toDigitsCore]
  | succ f ih =>
      intro n ds
      simp only [Nat.toDigitsCore]
      by_cases h : n / b = 0
      · simp [h]
      · simp only [h, if_false]
        rw [ih (n / b) (Nat.digitChar (n % b) :: ds),
          ih (n / b) [Nat.digitChar (n % b)], List.append_assoc]
        rfl

theorem digitsVal_append_singleton (xs : List Char) (c : Char) :
    digitsVal (xs ++ [c]) = 10 * digitsVal xs + decDigit c := by
  simp [digitsVal, List.foldl_append]

theorem decDigit_digitChar : ∀ m : Fin 10, decDigit (Nat.digitChar m.val) = m.val := by
  decide

theorem toDigitsCore_val :
    ∀ (fuel n : Nat), n < 10 ^ fuel →
      digitsVal (Nat.toDigitsCore 10 fuel n []) = n := by
  intro fuel
  induction fuel with
  | zero =>
      intro n h
      have hn : n = 0 := by simpa using h
      subst hn
      simp [Nat.toDigitsCore, digitsVal]
  | succ f ih =>
      intro n h
      simp only [Nat.toDigitsCore]
      have hmod : decDigit (Nat.digitChar (n % 10)) = n % 10 :=
        decDigit_digitChar ⟨n % 10, by omega⟩
      by_cases h10 : n / 10 = 0
      · simp only [h10, if_true]
        have : digitsVal [Nat.digitChar (n % 10)] = decDigit (Nat.digitChar (n % 10)) := by
          simp [digitsVal]
        rw [this, hmod]
        omega
      · simp only [h10, if_false]
        rw [toDigitsCore_eq_append, digitsVal_append_singleton]
        have hlt : n / 10 < 10 ^ f := by
          rw [pow_succ] at h
          generalize 10 ^ f = P at *
          omega
        rw [ih (n / 10) hlt, hmod]
        omega

theorem digitsVal_toDigits (n : Nat) : digitsVal (Nat.toDigits 10 n) = n := by
  have hfuel : n < 10 ^ (n + 1) := by
    calc n < 2 ^ n := Nat.lt_two_pow n
    _ ≤ 10 ^ n := Nat.pow_le_pow_left (by omega) n
    _ ≤ 10 ^ (n + 1) := Nat.pow_le_pow_right (by omega) (by omega)
  exact toDigitsCore_val (n + 1) n hfuel

/-- Decimal rendering of naturals is injective: distinct counters give
distinct id strings. -/
theorem natRepr_injective {a b : Nat} (h : Nat.repr a = Nat.repr b) : a = b := by
  have hd : Nat.toDigits 10 a = Nat.toDigits 10 b := by
    have hdata := congrArg String.data h
    simpa [Nat.repr, List.asString] using hdata
  have := congrArg digitsVal hd
  rwa [digitsVal_toDigits, digitsVal_toDigits] at this

theorem toString_nat_eq_repr (n : Nat) : toString n = Nat.repr n := rfl

theorem issuedIds_append (a b : List SocketEffect) :
    issuedIds (a ++ b) = issuedIds a ++ issuedIds b := by
  induction a with
  | nil => simp [issuedIds]
  | cons e rest ih => cases e <;> simp [issuedIds, ih]

theorem step_call (s : RunState) (address method : String) (param : Value) :
    step s (ClientOp.call address method param) =
      { client := { id := s.client.id + 1 }
      , effects := s.effects ++ [SocketEffect.emitRPC RPCEvent
          { id := Nat.repr (s.client.id + 1)
          , method := (address ++ ".") ++ method
          , params := [param] }]
      , pending := s.pending ++ [(Nat.repr (s.client.id + 1), requestCallback)] } :=
  rfl

theorem step_authenticate (s : RunState) (token : String) :
    step s (ClientOp.authenticate token) =
      { client := { id := s.client.id + 1 }
      , effects := s.effects ++ [SocketEffect.emitRPC RPCEvent
          { id := Nat.repr (s.client.id + 1)
          , method := ("" ++ ".") ++ "Live.Authenticate"
          , params := [Value.str token] }]
      , pending := s.pending ++ [(Nat.repr (s.client.id + 1), requestCallback)] } :=
  rfl

theorem step_notify_eq (s : RunState) (method : String) (param : Value) :
    step s (ClientOp.notify method param) =
      { client := s.client
      , effects := s.effects ++ [SocketEffect.emitPlain method param]
      , pending := s.pending } :=
  rfl

theorem settleIn_mem (resp : RPCResponse) :
    ∀ p : List (String × (RPCResponse → Outcome)),
      (∀ e ∈ p, e.2 = requestCallback) → (p.map Prod.fst).Nodup →
      resp.id ∈ p.map Prod.fst →
      (settleIn resp p).1.map Prod.fst = (p.map Prod.fst).erase resp.id ∧
      (settleIn resp p).2 = [(resp.id, requestCallback resp)] ∧
      ∀ e ∈ (settleIn resp p).1, e.2 = requestCallback := by
  intro p
  induction p with
  | nil => intro _ _ hmem; simp at hmem
  | cons e rest ih =>
      intro hall hnd hmem
      by_cases he : e.1 = resp.id
      · simp only [settleIn, he, if_true]
        refine ⟨?_, ?_, ?_⟩
        · simp [← he, List.erase_cons_head]
        · rw [hall e (List.mem_cons_self e rest)]
        · intro x hx
          exact hall x (List.mem_cons_of_mem e hx)
      · have hmem' : resp.id ∈ rest.map Prod.fst := by
          rcases List.mem_cons.mp hmem with h | h
          · exact absurd h.symm he
          · exact h
        have hall' : ∀ x ∈ rest, x.2 = requestCallback :=
          fun x hx => hall x (List.mem_cons_of_mem e hx)
        have hnd' : (rest.map Prod.fst).Nodup := (List.nodup_cons.mp hnd).2
        obtain ⟨ih1, ih2, ih3⟩ := ih hall' hnd' hmem'
        simp only [settleIn, he, if_false]
        refine ⟨?_, ih2, ?_⟩
        · simp only [List.map_cons, ih1]
          rw [List.erase_cons_tail (by simpa using he)]
        · intro x hx
          rcases List.mem_cons.mp hx with h | h
          · rw [h]; exact hall e (List.mem_cons_self e rest)
          · exact ih3 x h

/-- Delivering a batch of responses whose ids are a permutation of the
pending ids (each pending call acknowledged exactly once, arriving in
an arbitrary order) empties the registry and settles, in arrival order,
each response against the callback registered for its id. -/
theorem deliver_spec :
    ∀ (resps : List RPCResponse) (p : List (String × (RPCResponse → Outcome)))
      (settled : List (String × Outcome)),
      (∀ e ∈ p, e.2 = requestCallback) → (p.map Prod.fst).Nodup →
      List.Perm (resps.map RPCResponse.id) (p.map Prod.fst) →
      deliver ⟨p, settled⟩ resps =
        ⟨[], settled ++ resps.map (fun r => (r.id, requestCallback r))⟩ := by
  intro resps
  induction resps with
  | nil =>
      intro p settled _ _ hperm
      have hp : p = [] := by
        have := hperm.symm.eq_nil
        exact List.map_eq_nil_iff.mp this
      subst hp
      simp [deliver]
  | cons r rs ih =>
      intro p settled hall hnd hperm
      have hmem : r.id ∈ p.map Prod.fst := by
        have : r.id ∈ (r :: rs).map RPCResponse.id := by simp
        exact hperm.subset this
      obtain ⟨h1, h2, h3⟩ := settleIn_mem r p hall hnd hmem
      have hone : deliverOne ⟨p, settled⟩ r =
          ⟨(settleIn r p).1, settled ++ [(r.id, requestCallback r)]⟩ := by
        simp only [deliverOne, h2]
      have hnd' : ((settleIn r p).1.map Prod.fst).Nodup := by
        rw [h1]; exact hnd.erase _
      have hperm' : List.Perm (rs.map RPCResponse.id) ((settleIn r p).1.map Prod.fst) := by
        rw [h1]
        have := (List.cons_perm_iff_perm_erase.mp (by simpa using hperm)).2
        exact this
      have := ih (settleIn r p).1 (settled ++ [(r.id, requestCallback r)]) h3 hnd' hperm'
      simp only [deliver, hone, this, List.map_cons]
      simp

/-- Running a sequence of operations: the counter advances by one per
call/authenticate, the ids attached to emitted envelopes are the
decimal renderings of the consecutive counter values, and the pending
registry gains one entry per call/authenticate keyed by that id, each
holding the request acknowledgement callback. -/
theorem runOps_spec :
    ∀ (ops : List ClientOp) (s : RunState),
      (runOps s ops).client.id = s.client.id + callCount ops ∧
      issuedIds (runOps s ops).effects =
        issuedIds s.effects ++
          (List.range' (s.client.id + 1) (callCount ops)).map Nat.repr ∧
      (runOps s ops).pending = s.pending ++
          (List.range' (s.client.id + 1) (callCount ops)).map
            (fun i => (Nat.repr i, requestCallback)) := by
  intro ops
  induction ops with
  | nil => intro s; simp [runOps, callCount]
  | cons op rest ih =>
      intro s
      cases op with
      | call address method param =>
          simp only [runOps, step_call, callCount]
          obtain ⟨h1, h2, h3⟩ := ih
            { client := { id := s.client.id + 1 }
            , effects := s.effects ++ [SocketEffect.emitRPC RPCEvent
                { id := Nat.repr (s.client.id + 1)
                , method := (address ++ ".") ++ method
                , params := [param] }]
            , pending := s.pending ++ [(Nat.repr (s.client.id + 1), requestCallback)] }
          refine ⟨by rw [h1]; show s.client.id + 1 + callCount rest = _; omega, ?_, ?_⟩
          · rw [h2, issuedIds_append, List.range'_succ]
            simp [issuedIds]
          · rw [h3, List.range'_succ]
            simp
      | authenticate token =>
          simp only [runOps, step_authenticate, callCount]
          obtain ⟨h1, h2, h3⟩ := ih
            { client := { id := s.client.id + 1 }
            , effects := s.effects ++ [SocketEffect.emitRPC RPCEvent
                { id := Nat.repr (s.client.id + 1)
                , method := ("" ++ ".") ++ "Live.Authenticate"
                , params := [Value.str token] }]
            , pending := s.pending ++ [(Nat.repr (s.client.id + 1), requestCallback)] }
          refine ⟨by rw [h1]; show s.client.id + 1 + callCount rest = _; omega, ?_, ?_⟩
          · rw [h2, issuedIds_append, List.range'_succ]
            simp [issuedIds]
          · rw [h3, List.range'_succ]
            simp
      | notify method param =>
          simp only [runOps, step_notify_eq, callCount]
          obtain ⟨h1, h2, h3⟩ := ih
            { client := s.client
            , effects := s.effects ++ [SocketEffect.emitPlain method param]
            , pending := s.pending }
          refine ⟨h1, ?_, h3⟩
          rw [h2, issuedIds_append]
          simp [issuedIds]

theorem callCount_callsOf (xs : List (String × String × Value)) :
    callCount (callsOf xs) = xs.length := by
  induction xs with
  | nil => rfl
  | cons x rest ih => simp [callsOf, callCount] at ih ⊢; exact ih

/-- C1: the claim says that when a registered handler's asynchronous
result fails, the acknowledgement callback is invoked exactly once,
with the error response.  The code instead invokes it twice: the
`catch` step acknowledges with the 500 error, and the chained `then`
step then fires a second acknowledgement with an undefined result.
This theorem evaluates the registered listener at the failing input
(registered method "Foo.Bar", inbound envelope with id "7" and the
same method, handler rejecting with "boom"). -/
theorem onRequest_failure_double_ack :
    (LiveClient.onRequest "Foo.Bar" (fun _ => Except.error (Value.str "boom"))
        { id := "7", method := "Foo.Bar", params := [Value.null] }).acks =
      [ { id := "7", error := some { code := 500, message := Value.str "boom" } }
      , { id := "7", result := none } ] ∧
    (LiveClient.onRequest "Foo.Bar" (fun _ => Except.error (Value.str "boom"))
        { id := "7", method := "Foo.Bar", params := [Value.null] }).acks.length = 2 :=
  ⟨rfl, rfl⟩

/-- C7: for every registered handler and every matching inbound request
envelope, if the handler's asynchronous result succeeds with value `v`,
the acknowledgement callback is invoked exactly once, with
`id` the envelope's id, `result` `v` and no error. -/
theorem onRequest_success_ack (method : String) (handler : Value → Except Value Value)
    (request : RPCRequest) (v : Value)
    (hm : request.method = method)
    (hs : handler (request.params.headD Value.null) = Except.ok v) :
    (LiveClient.onRequest method handler request).acks =
      [{ id := request.id, result := some v, error := none }] := by
  simp only [LiveClient.onRequest, hm, if_true]
  rw [hs]

theorem onRequest_success_ack_witness :
    (LiveClient.onRequest "Foo.Bar" (fun _ => Except.ok (Value.num 42))
        { id := "7", method := "Foo.Bar", params := [Value.null] }).acks =
      [{ id := "7", result := some (Value.num 42), error := none }] :=
  onRequest_success_ack "Foo.Bar" (fun _ => Except.ok (Value.num 42))
    { id := "7", method := "Foo.Bar", params := [Value.null] } (Value.num 42) rfl rfl

/-- C6: the listener registered by `onRequest(method, handler)` invokes
the handler, with the envelope's first params element, if and only if
the inbound envelope's method is exactly the registered method; on a
non-matching envelope it performs no side effect at all, neither a
handler invocation nor an acknowledgement. -/
theorem onRequest_method_filter (method : String) (handler : Value → Except Value Value)
    (request : RPCRequest) :
    ((LiveClient.onRequest method handler request).handlerCalls ≠ [] ↔
        request.method = method) ∧
    (request.method = method →
      (LiveClient.onRequest method handler request).handlerCalls =
        [request.params.headD Value.null]) ∧
    (request.method ≠ method →
      LiveClient.onRequest method handler request =
        { handlerCalls := [], acks := [] }) := by
  by_cases h : request.method = method
  · refine ⟨?_, fun _ => ?_, fun hc => absurd h hc⟩
    · simp only [LiveClient.onRequest, h, if_true]
      cases hh : handler (request.params.headD Value.null) <;> simp [hh, h]
    · simp only [LiveClient.onRequest, h, if_true]
      cases hh : handler (request.params.headD Value.null) <;> simp [hh]
  · refine ⟨?_, fun hc => absurd hc h, fun _ => ?_⟩
    · simp [LiveClient.onRequest, h]
    · simp [LiveClient.onRequest, h]

theorem onRequest_method_filter_witness :
    LiveClient.onRequest "Foo.Bar" (fun v => Except.ok v)
        { id := "9", method := "Foo.Baz", params := [] } =
      { handlerCalls := [], acks := [] } :=
  (onRequest_method_filter "Foo.Bar" (fun v => Except.ok v)
      { id := "9", method := "Foo.Baz", params := [] }).2.2 (by decide)

/-- C4: for every target address, method and param, `call` emits on the
shared RPC channel a Request envelope whose method field is
`targetAddress + "." + method` and whose params field is the
one-element list containing param; in particular the call
`("peerA", "Foo.Bar", obj x:1)` produces method "peerA.Foo.Bar" and
params containing exactly that object. -/
theorem call_envelope_shape (s : RunState) (targetAddress method : String) (param : Value) :
    ((step s (ClientOp.call targetAddress method param)).effects =
      s.effects ++ [SocketEffect.emitRPC RPCEvent
        { id := Nat.repr (s.client.id + 1)
        , method := (targetAddress ++ ".") ++ method
        , params := [param] }]) ∧
    ((LiveClient.mk 0).request "peerA" "Foo.Bar"
        (Value.obj [("x", Value.num 1)])).2.1.method = "peerA.Foo.Bar" ∧
    ((LiveClient.mk 0).request "peerA" "Foo.Bar"
        (Value.obj [("x", Value.num 1)])).2.1.params = [Value.obj [("x", Value.num 1)]] :=
  ⟨rfl, rfl, rfl⟩

/-- C5: for every call, the installed acknowledgement callback settles
the call by rejecting with the response's ErrorInfo verbatim when
`error` is present, and by resolving with the response's `result` value
when `error` is absent. -/
theorem response_error_propagation (c : LiveClient) (address method : String)
    (param : Value) (resp : RPCResponse) :
    (∀ e, resp.error = some e →
      (c.request address method param).2.2 resp = Outcome.rejected e) ∧
    (resp.error = none →
      (c.request address method param).2.2 resp = Outcome.resolved resp.result) := by
  constructor
  · intro e he
    show requestCallback resp = _
    simp [requestCallback, he]
  · intro he
    show requestCallback resp = _
    simp [requestCallback, he]

theorem response_error_propagation_witness :
    ((LiveClient.mk 0).request "peerA" "Foo.Bar" Value.null).2.2
        { id := "3", error := some { code := 401, message := Value.str "bad token" } } =
      Outcome.rejected { code := 401, message := Value.str "bad token" } ∧
    ({ code := 401, message := Value.str "bad token" } : RPCError).code = 401 :=
  ⟨(response_error_propagation (LiveClient.mk 0) "peerA" "Foo.Bar" Value.null
      { id := "3", error := some { code := 401, message := Value.str "bad token" } }).1
      { code := 401, message := Value.str "bad token" } rfl
  , rfl⟩

/-- C8: `notify(method, param)` emits the payload on a channel named
exactly `method`, with no envelope id and no acknowledgement callback,
creates no pending-call entry, leaves the counter unchanged, and is a
total (never locally failing) operation. -/
theorem notify_frame (s : RunState) (method : String) (param : Value) :
    step s (ClientOp.notify method param) =
      { client := s.client
      , effects := s.effects ++ [SocketEffect.emitPlain method param]
      , pending := s.pending } ∧
    s.client.notify method param = (s.client, SocketEffect.emitPlain method param) :=
  ⟨rfl, rfl⟩

/-- C9: `authenticate(token)` is the call
`request("", "Live.Authenticate", token)` itself: same new state, same
emitted envelope, same acknowledgement callback. -/
theorem authenticate_is_call (c : LiveClient) (token : String) :
    c.authenticate token = c.request "" "Live.Authenticate" (Value.str token) :=
  rfl

/-- C10: a call with the empty target address emits an envelope whose
method string keeps the leading separator: it is `"." ++ method`; in
particular `authenticate` emits method ".Live.Authenticate". -/
theorem empty_target_leading_dot (c : LiveClient) (method : String) (param : Value)
    (token : String) :
    (c.request "" method param).2.1.method = "." ++ method ∧
    (c.authenticate token).2.1.method = ".Live.Authenticate" := by
  constructor
  · show ("" ++ ".") ++ method = "." ++ method
    rfl
  · rfl

/-- C3: over any sequence of operations on one client instance, the ids
attached to emitted request envelopes are exactly the decimal
renderings of the consecutive counter values 1, 2, ..., k — a strictly
increasing integer sequence — and no id string is ever issued twice
during the lifetime of the instance. -/
theorem issued_ids_strictly_increasing (ops : List ClientOp) :
    issuedIds (runOps initialState ops).effects =
      (List.range' 1 (callCount ops)).map Nat.repr ∧
    List.Pairwise (· < ·) (List.range' 1 (callCount ops)) ∧
    (issuedIds (runOps initialState ops).effects).Nodup := by
  obtain ⟨-, h2, -⟩ := runOps_spec ops initialState
  have heq : issuedIds (runOps initialState ops).effects =
      (List.range' 1 (callCount ops)).map Nat.repr := by
    simpa [initialState, issuedIds] using h2
  have hinj : Function.Injective Nat.repr := fun a b h => natRepr_injective h
  refine ⟨heq, List.pairwise_lt_range' 1 (callCount ops), ?_⟩
  rw [heq]
  exact (List.nodup_range' 1 (callCount ops)).map hinj

/-- C2: a batch of concurrent calls on one instance, acknowledged in an
arbitrary arrival order (the response ids forming a permutation of the
issued request ids): delivery empties the registry and settles each
call exactly once — every request id occurs exactly once among the
settled entries — and the call whose request id is `r.id` receives
precisely the error (as a rejection) or result (as a resolution) of the
response envelope `r` carrying that id. -/
theorem concurrent_calls_settle_by_id (xs : List (String × String × Value))
    (resps : List RPCResponse)
    (hperm : List.Perm (resps.map RPCResponse.id)
      ((runOps initialState (callsOf xs)).pending.map Prod.fst)) :
    deliver ⟨(runOps initialState (callsOf xs)).pending, []⟩ resps =
      ⟨[], resps.map (fun r => (r.id, requestCallback r))⟩ ∧
    (resps.map RPCResponse.id).Nodup ∧
    ∀ r ∈ resps,
      (r.id, match r.error with
             | some e => Outcome.rejected e
             | none => Outcome.resolved r.result) ∈
        (deliver ⟨(runOps initialState (callsOf xs)).pending, []⟩ resps).settled := by
  obtain ⟨-, -, h3⟩ := runOps_spec (callsOf xs) initialState
  have hpend : (runOps initialState (callsOf xs)).pending =
      (List.range' 1 (callCount (callsOf xs))).map
        (fun i => (Nat.repr i, requestCallback)) := by
    simpa [initialState] using h3
  have hall : ∀ e ∈ (runOps initialState (callsOf xs)).pending,
      e.2 = requestCallback := by
    intro e he
    rw [hpend] at he
    obtain ⟨i, -, rfl⟩ := List.mem_map.mp he
    rfl
  have hkeys : (runOps initialState (callsOf xs)).pending.map Prod.fst =
      (List.range' 1 (callCount (callsOf xs))).map Nat.repr := by
    rw [hpend, List.map_map]
    rfl
  have hinj : Function.Injective Nat.repr := fun a b h => natRepr_injective h
  have hnd : ((runOps initialState (callsOf xs)).pending.map Prod.fst).Nodup := by
    rw [hkeys]
    exact (List.nodup_range' 1 (callCount (callsOf xs))).map hinj
  have hmain := deliver_spec resps (runOps initialState (callsOf xs)).pending []
    hall hnd hperm
  refine ⟨by simpa using hmain, hperm.nodup_iff.mpr hnd, ?_⟩
  intro r hr
  rw [hmain]
  simp only [List.nil_append]
  exact List.mem_map_of_mem _ hr

theorem concurrent_calls_settle_by_id_witness :
    (("1" : String),
      Outcome.rejected { code := 401, message := Value.str "bad token" }) ∈
      (deliver
        ⟨(runOps initialState (callsOf
            [("peerA", "M", Value.null), ("peerB", "N", Value.null)])).pending, []⟩
        [ { id := "2", result := some (Value.num 2) }
        , { id := "1", error := some { code := 401, message := Value.str "bad token" } }
        ]).settled := by
  have h := concurrent_calls_settle_by_id
      [("peerA", "M", Value.null), ("peerB", "N", Value.null)]
      [ { id := "2", result := some (Value.num 2) }
      , { id := "1", error := some { code := 401, message := Value.str "bad token" } } ]
      (by decide)
  exact h.2.2
    { id := "1", error := some { code := 401, message := Value.str "bad token" } }
    (List.mem_cons_of_mem _ (List.mem_cons_self _ _))
